import Mathlib

/-
  Verification development for the dashboard server: a shallow embedding of
  the job-orchestration, status-inference and artifact-analytics routines
  (src/server.js, src/lib/readers.js and the unnamed readers module), with
  theorems settling the specification claims.

  Modelling conventions:
  * JS numbers are modelled as rationals; a value that can be `NaN` or
    absent is an `Option` (none = NaN / undefined / non-numeric).
  * JS strings are `String` or `List Char`; truthiness of a string is the
    test against the empty string.
  * JS `Date` objects are modelled by their UTC civil fields (`JsDate`);
    `getTime` converts to epoch milliseconds with the standard
    days-from-civil algorithm.
-/

set_option allowUnsafeReducibility true
attribute [local semireducible] Rat.add Rat.mul Rat.inv Rat.sub Rat.neg Rat.div

namespace Dashboard

/-- Inferred lifecycle status of a build (src/server.js `detectLogStatus`). -/
inductive Status where
  | running
  | success
  | failed
deriving DecidableEq, Repr

/-- Decimal digit character for a value below 10 (models JS number formatting). -/
def decChar (n : Nat) : Char := Char.ofNat (48 + n)

/-- Numeric value of a decimal digit character (models `Number` on a digit). -/
def digitVal (c : Char) : Nat := c.toNat - 48

/-- Fuel-indexed accumulator for decimal representation of a natural number. -/
def natReprAux : Nat → Nat → List Char → List Char
  | 0, _, acc => acc
  | fuel + 1, n, acc =>
    if n < 10 then decChar n :: acc
    else natReprAux fuel (n / 10) (decChar (n % 10) :: acc)

/-- Decimal representation of a natural number, as JS `String(n)` produces it. -/
def natRepr (n : Nat) : List Char := natReprAux (n + 1) n []

/-- Decimal representation of an integer, as JS `String(n)` produces it. -/
def intRepr (n : Int) : List Char :=
  if n < 0 then '-' :: natRepr n.natAbs else natRepr n.toNat

/-- JS `String.prototype.padStart(width, '0')`. -/
def padStartZeros (width : Nat) (l : List Char) : List Char :=
  List.replicate (width - l.length) '0' ++ l

/-- Two-digit zero-padded field used by `formatStamp` (src/server.js `pad`). -/
def pad2 (n : Nat) : List Char := padStartZeros 2 (natRepr n)

/-- Three-digit zero-padded millisecond field of `toISOString`. -/
def pad3 (n : Nat) : List Char := padStartZeros 3 (natRepr n)

/-- Four-digit zero-padded year field of `toISOString`. -/
def pad4 (n : Nat) : List Char := padStartZeros 4 (natRepr n)

/-- A JS `Date` in the model: its UTC civil fields.  `month` is 1-based
(the JS accessor `getUTCMonth()` returns `month - 1`); `ms` is the
sub-second millisecond component. -/
structure JsDate where
  year : Int
  month : Nat
  day : Nat
  hour : Nat
  minute : Nat
  second : Nat
  ms : Nat
deriving DecidableEq, Repr

/-- Gregorian leap-year predicate. -/
def isLeap (y : Int) : Bool := (y % 4 == 0 && y % 100 != 0) || y % 400 == 0

/-- Number of days in a (1-based) month of a given year. -/
def daysInMonth (y : Int) (m : Nat) : Nat :=
  if m = 2 then (if isLeap y then 29 else 28)
  else if m = 4 ∨ m = 6 ∨ m = 9 ∨ m = 11 then 30
  else 31

/-- A `JsDate` whose fields are in range, i.e. one that a real (non-invalid)
JS `Date` can report through its UTC accessors. -/
def JsDate.Valid (d : JsDate) : Prop :=
  1 ≤ d.month ∧ d.month ≤ 12 ∧ 1 ≤ d.day ∧ d.day ≤ daysInMonth d.year d.month ∧
    d.hour ≤ 23 ∧ d.minute ≤ 59 ∧ d.second ≤ 59 ∧ d.ms ≤ 999

instance (d : JsDate) : Decidable d.Valid := by
  unfold JsDate.Valid; infer_instance

/-- Days since the Unix epoch of a civil date (days-from-civil algorithm;
`/` is truncating division, as in the reference implementation). -/
def daysFromCivil (y : Int) (m d : Nat) : Int :=
  let y2 : Int := y - (if m ≤ 2 then 1 else 0)
  let era : Int := (if 0 ≤ y2 then y2 else y2 - 399) / 400
  let yoe : Int := y2 - era * 400
  let mp : Int := (m : Int) + (if 2 < m then -3 else 9)
  let doy : Int := (153 * mp + 2) / 5 + (d : Int) - 1
  let doe : Int := yoe * 365 + yoe / 4 - yoe / 100 + doy
  era * 146097 + doe - 719468

/-- Civil date (year, 1-based month, day) of a day count since the epoch
(civil-from-days algorithm). -/
def civilFromDays (z0 : Int) : Int × Nat × Nat :=
  let z : Int := z0 + 719468
  let era : Int := (if 0 ≤ z then z else z - 146096) / 146097
  let doe : Int := z - era * 146097
  let yoe : Int := (doe - doe / 1460 + doe / 36524 - doe / 146096) / 365
  let y : Int := yoe + era * 400
  let doy : Int := doe - (365 * yoe + yoe / 4 - yoe / 100)
  let mp : Int := (5 * doy + 2) / 153
  let d : Int := doy - (153 * mp + 2) / 5 + 1
  let m : Int := mp + (if mp < 10 then 3 else -9)
  (y + (if m ≤ 2 then 1 else 0), m.toNat, d.toNat)

/-- Epoch milliseconds of a `JsDate` (JS `Date.prototype.getTime`). -/
def JsDate.getTime (dt : JsDate) : Int :=
  daysFromCivil dt.year dt.month dt.day * 86400000 +
    (dt.hour : Int) * 3600000 + (dt.minute : Int) * 60000 +
    (dt.second : Int) * 1000 + (dt.ms : Int)

/-- The `JsDate` of an epoch-millisecond value (JS `new Date(ms)` as seen
through the UTC accessors). -/
def jsDateOfMs (t : Int) : JsDate :=
  let days : Int := Int.fdiv t 86400000
  let rem : Int := Int.emod t 86400000
  let ymd := civilFromDays days
  { year := ymd.1, month := ymd.2.1, day := ymd.2.2,
    hour := (Int.fdiv rem 3600000).toNat,
    minute := (Int.emod (Int.fdiv rem 60000) 60).toNat,
    second := (Int.emod (Int.fdiv rem 1000) 60).toNat,
    ms := (Int.emod rem 1000).toNat }

/-- JS `Date.UTC(y, monthIndex, d, h, mi, s)` followed by `new Date(...)`,
restricted to in-range components (JS additionally normalizes out-of-range
components by rolling into adjacent months/years; no code path under
verification exercises that normalization, so out-of-range input is mapped
to `none` here). `monthIndex` is 0-based, as in JS. -/
def jsDateUTC (y mIdx d h mi s : Int) : Option JsDate :=
  if 0 ≤ mIdx ∧ mIdx ≤ 11 ∧ 1 ≤ d ∧ d ≤ (daysInMonth y (mIdx + 1).toNat : Int) ∧
      0 ≤ h ∧ h ≤ 23 ∧ 0 ≤ mi ∧ mi ≤ 59 ∧ 0 ≤ s ∧ s ≤ 59 then
    some { year := y, month := (mIdx + 1).toNat, day := d.toNat,
           hour := h.toNat, minute := mi.toNat, second := s.toNat, ms := 0 }
  else none

/-- JS `Date.prototype.toISOString` of a date with in-range fields:
`YYYY-MM-DDTHH:MM:SS.mmmZ` (years outside `0..9999` use the expanded
six-digit signed form). -/
def toISOString (d : JsDate) : List Char :=
  let yearPart :=
    if 0 ≤ d.year ∧ d.year ≤ 9999 then pad4 d.year.toNat
    else (if d.year < 0 then '-' else '+') :: padStartZeros 6 (natRepr d.year.natAbs)
  yearPart ++ '-' :: pad2 d.month ++ '-' :: pad2 d.day ++
    'T' :: pad2 d.hour ++ ':' :: pad2 d.minute ++ ':' :: pad2 d.second ++
    '.' :: pad3 d.ms ++ ['Z']

/-- Reads exactly `n` decimal digits from the front of a character list. -/
def takeDigits : Nat → List Char → Option (Nat × List Char)
  | 0, l => some (0, l)
  | _ + 1, [] => none
  | n + 1, c :: rest =>
    if c.isDigit then
      match takeDigits n rest with
      | some (v, rem) => some (digitVal c * 10 ^ n + v, rem)
      | none => none
    else none

/-- Parses the optional time-of-day tail of an ISO timestamp:
`HH:MM`, `HH:MM:SS` or `HH:MM:SS.mmm`, optionally followed by `Z`. -/
def parseTimeTail (l : List Char) : Option (Nat × Nat × Nat × Nat) :=
  match takeDigits 2 l with
  | none => none
  | some (h, rest1) =>
    match rest1 with
    | ':' :: rest2 =>
      match takeDigits 2 rest2 with
      | none => none
      | some (mi, rest3) =>
        let finish := fun (s ms : Nat) (tail : List Char) =>
          match tail with
          | [] => some (h, mi, s, ms)
          | ['Z'] => some (h, mi, s, ms)
          | _ => none
        match rest3 with
        | ':' :: rest4 =>
          match takeDigits 2 rest4 with
          | none => none
          | some (s, rest5) =>
            match rest5 with
            | '.' :: rest6 =>
              match takeDigits 3 rest6 with
              | none => none
              | some (ms, rest7) => finish s ms rest7
            | _ => finish s 0 rest5
        | _ => finish 0 0 rest3
    | _ => none

/-- JS `new Date(string)` for the ISO 8601 date-time family
(`YYYY-MM-DD`, optionally `T` and a time of day, optionally terminated by
`Z`): `none` models an invalid date (`getTime()` is `NaN`).  The model
treats designator-less date-times as UTC and does not accept numeric
offsets (`+HH:MM`) or the legacy space-separated form, neither of which is
fed to the parser by the code under verification. -/
def jsParse (l : List Char) : Option JsDate :=
  match takeDigits 4 l with
  | none => none
  | some (y, rest1) =>
    match rest1 with
    | '-' :: rest2 =>
      match takeDigits 2 rest2 with
      | none => none
      | some (mo, rest3) =>
        match rest3 with
        | '-' :: rest4 =>
          match takeDigits 2 rest4 with
          | none => none
          | some (d, rest5) =>
            let mk := fun (h mi s ms : Nat) =>
              if 1 ≤ mo ∧ mo ≤ 12 ∧ 1 ≤ d ∧ d ≤ daysInMonth (y : Int) mo ∧
                  h ≤ 23 ∧ mi ≤ 59 ∧ s ≤ 59 then
                some { year := (y : Int), month := mo, day := d,
                       hour := h, minute := mi, second := s, ms := ms }
              else none
            match rest5 with
            | [] => mk 0 0 0 0
            | 'T' :: rest6 =>
              match parseTimeTail rest6 with
              | none => none
              | some (h, mi, s, ms) => mk h mi s ms
            | _ => none
        | _ => none
    | _ => none

/-- `jsParse` on a `String`. -/
def jsParseStr (s : String) : Option JsDate := jsParse s.data

/-- Whether `pat` is a prefix of `l` (character-by-character). -/
def beginsWith : List Char → List Char → Bool
  | [], _ => true
  | _ :: _, [] => false
  | a :: as, b :: bs => a = b && beginsWith as bs

/-- JS `String.prototype.includes`: whether `pat` occurs contiguously in `l`. -/
def containsSeq (pat : List Char) : List Char → Bool
  | [] => beginsWith pat []
  | c :: t => beginsWith pat (c :: t) || containsSeq pat t

/-- Lower-cases a character list, as JS `toLowerCase` does on ASCII text. -/
def lowerAll (l : List Char) : List Char := l.map Char.toLower

/-- Whether the lowered log text contains one of the three failure markers
scanned for by `detectLogStatus` (src/server.js). -/
def hasFailureMarker (content : List Char) : Bool :=
  let lowered := lowerAll content
  containsSeq ('t' :: 'r' :: 'a' :: 'c' :: 'e' :: 'b' :: 'a' :: 'c' :: 'k' :: []) lowered ||
    containsSeq ('e' :: 'r' :: 'r' :: 'o' :: 'r' :: ':' :: []) lowered ||
    containsSeq ('e' :: 'x' :: 'c' :: 'e' :: 'p' :: 't' :: 'i' :: 'o' :: 'n' :: []) lowered

/-- src/server.js `detectLogStatus(content, mtimeMs)`: failure markers win,
then a two-minute modification-time freshness window means `running`,
otherwise `success`. -/
def detectLogStatus (content : List Char) (mtimeMs nowMs : Int) : Status :=
  if hasFailureMarker content then .failed
  else if nowMs - mtimeMs < 2 * 60 * 1000 then .running
  else .success

/-- Splits text on `\r?\n` line separators (JS `content.split(/\r?\n/)`). -/
def splitLines (content : List Char) : List (List Char) :=
  (content.splitOn '\n').map fun l =>
    match l.getLast? with
    | some '\r' => l.dropLast
    | _ => l

/-- Matches the timestamped-line prefix
`^\d{4}-\d{2}-\d{2} \d{2}:\d{2}:\d{2}` of `extractLogTimestamps`,
returning the 19 captured characters. -/
def matchTsPrefix (l : List Char) : Option (List Char) :=
  match l with
  | y1 :: y2 :: y3 :: y4 :: '-' :: mo1 :: mo2 :: '-' :: d1 :: d2 :: ' ' ::
      h1 :: h2 :: ':' :: mi1 :: mi2 :: ':' :: s1 :: s2 :: _ =>
    if (y1.isDigit && y2.isDigit && y3.isDigit && y4.isDigit &&
        mo1.isDigit && mo2.isDigit && d1.isDigit && d2.isDigit &&
        h1.isDigit && h2.isDigit && mi1.isDigit && mi2.isDigit &&
        s1.isDigit && s2.isDigit) then
      some (y1 :: y2 :: y3 :: y4 :: '-' :: mo1 :: mo2 :: '-' :: d1 :: d2 :: 'T' ::
        h1 :: h2 :: ':' :: mi1 :: mi2 :: ':' :: s1 :: s2 :: [])
    else none
  | _ => none

/-- src/server.js `extractLogTimestamps`: the dates parsed from the first
and last lines carrying a standard timestamp prefix (the captured prefix
has its separating space replaced by `T` before parsing). -/
def extractLogTimestamps (content : List Char) : Option JsDate × Option JsDate :=
  let lines := splitLines content
  let firstLine := lines.find? fun l => (matchTsPrefix l).isSome
  let lastLine := lines.reverse.find? fun l => (matchTsPrefix l).isSome
  let parse := fun (l? : Option (List Char)) =>
    match l? with
    | none => none
    | some l =>
      match matchTsPrefix l with
      | none => none
      | some ts => jsParse ts
  (parse firstLine, parse lastLine)

/-- src/server.js `formatStamp`: the log-identity stamp
`YYYYMMDD_HHMMSS` built from the UTC fields of a date (the year is
rendered by `String(...)`, unpadded; the other fields are zero-padded to
two digits). -/
def formatStamp (d : JsDate) : List Char :=
  intRepr d.year ++ pad2 d.month ++ pad2 d.day ++ '_' ::
    (pad2 d.hour ++ pad2 d.minute ++ pad2 d.second)

/-- src/server.js `parseTimestampStamp`: matches `^(\d{8})_(\d{6})$`,
splits the digit groups into calendar fields and rebuilds a UTC date via
`Date.UTC(year, month - 1, day, hour, minute, second)`. -/
def parseTimestampStamp (s : List Char) : Option JsDate :=
  match s with
  | y1 :: y2 :: y3 :: y4 :: mo1 :: mo2 :: d1 :: d2 :: '_' ::
      h1 :: h2 :: mi1 :: mi2 :: s1 :: s2 :: [] =>
    if (y1.isDigit && y2.isDigit && y3.isDigit && y4.isDigit &&
        mo1.isDigit && mo2.isDigit && d1.isDigit && d2.isDigit &&
        h1.isDigit && h2.isDigit && mi1.isDigit && mi2.isDigit &&
        s1.isDigit && s2.isDigit) then
      let year : Int :=
        (1000 * digitVal y1 + 100 * digitVal y2 + 10 * digitVal y3 + digitVal y4 : Nat)
      let month : Int := (10 * digitVal mo1 + digitVal mo2 : Nat)
      let day : Int := (10 * digitVal d1 + digitVal d2 : Nat)
      let hour : Int := (10 * digitVal h1 + digitVal h2 : Nat)
      let minute : Int := (10 * digitVal mi1 + digitVal mi2 : Nat)
      let second : Int := (10 * digitVal s1 + digitVal s2 : Nat)
      jsDateUTC year (month - 1) day hour minute second
    else none
  | _ => none

/-- The shape accepted by the stamp regex `^(\d{8})_(\d{6})$`: eight
digits, an underscore, six digits. -/
def StampShape (s : List Char) : Prop :=
  ∃ a b : List Char, s = a ++ '_' :: b ∧ a.length = 8 ∧ b.length = 6 ∧
    (∀ c ∈ a, c.isDigit) ∧ (∀ c ∈ b, c.isDigit)

/-- Boolean form of `StampShape`, by direct pattern match. -/
def isStampShape (s : List Char) : Bool :=
  match s with
  | y1 :: y2 :: y3 :: y4 :: mo1 :: mo2 :: d1 :: d2 :: '_' ::
      h1 :: h2 :: mi1 :: mi2 :: s1 :: s2 :: [] =>
    y1.isDigit && y2.isDigit && y3.isDigit && y4.isDigit &&
      mo1.isDigit && mo2.isDigit && d1.isDigit && d2.isDigit &&
      h1.isDigit && h2.isDigit && mi1.isDigit && mi2.isDigit &&
      s1.isDigit && s2.isDigit
  | _ => false

/-- Matches the log-file-name regex `^([0-9]{8}_[0-9]{6})\.(.+)\.log$` of
`parseBuildLog`, returning the stamp and the (greedily matched) job-id
segment. -/
def parseLogName (name : List Char) : Option (List Char × List Char) :=
  let n := name.length
  if 21 ≤ n then
    let stamp := name.take 15
    let job := (name.drop 16).take (n - 20)
    if isStampShape stamp ∧ name.get? 15 = some '.' ∧
        name.drop (n - 4) = '.' :: 'l' :: 'o' :: 'g' :: [] then
      some (stamp, job)
    else none
  else none

/-- JS `content.slice(-n)`: the final `n` characters (the whole text when
it is shorter than `n`). -/
def jsSliceLast (n : Nat) (l : List Char) : List Char := l.drop (l.length - n)

/-- The `meta` record registered for an active build
(src/server.js, `activeBuilds.set(logName, { child, meta })`). -/
structure BuildMeta where
  job_id : String
  logfile : String
  params : List (String × String)
  pid : Nat
  started_at : String
  command : String
  kill_requested_at : Option String
deriving DecidableEq, Repr

/-- The spawned child process handle, as far as the handlers observe it:
its pid and Node's `killed` flag (set once a termination signal has been
delivered to it). -/
structure ChildProc where
  pid : Nat
  killed : Bool
deriving DecidableEq, Repr

/-- One entry of the in-memory `activeBuilds` registry. -/
structure ActiveEntry where
  child : ChildProc
  meta : BuildMeta
deriving DecidableEq, Repr

/-- The executable command details produced by a job definition's
`buildCommand(params)`: `cmd = none` models a value that is not an array
of strings. -/
structure CmdDetails where
  cmd : Option (List String)
  cwd : Option String
  env : Option (List (String × String))
  publicParams : Option (List (String × String))

/-- One entry of `BUILD_DEFINITIONS` as the handlers consume it:
`enabled` is the JS test `definition?.enabled !== false`, and
`buildCommand = none` models a definition with no `buildCommand`
function. -/
structure BuildDefn where
  enabled : Bool
  disabled_reason : Option String
  requiredScripts : List String
  label : Option String
  buildCommand : Option (List (String × String) → CmdDetails)

/-- The derived per-log-file record assembled by `parseBuildLog`
(src/server.js): timestamps are kept as dates rather than serialized
ISO strings. -/
structure BuildInfo where
  id : String
  job : String
  logfile : String
  status : Status
  started_at : Option JsDate
  finished_at : Option JsDate
  duration_s : Option ℚ
  size_bytes : Nat
  updated_at : JsDate
  job_label : Option String
  active : Bool
  params : Option (List (String × String))
  command : Option String
  pid : Option Nat
  kill_requested_at : Option String
deriving DecidableEq, Repr

/-- The stage of src/server.js `parseBuildLog` that runs after the
truncation of over-long content: name parsing, status inference, timestamp
extraction, duration computation and the active-entry override. -/
def parseBuildLogAfter (defs : String → Option BuildDefn) (name : String)
    (c : List Char) (mtimeMs : Int) (sizeBytes : Nat) (nowMs : Int)
    (activeEntry : Option ActiveEntry) : BuildInfo :=
  let jobStamp :=
    match parseLogName name.data with
    | some (stamp, rest) => (String.mk rest, parseTimestampStamp stamp)
    | none => (name, none)
  let job := jobStamp.1
  let startedAt := jobStamp.2
  let status := detectLogStatus c mtimeMs nowMs
  let se := extractLogTimestamps c
  let started := se.1 <|> startedAt
  let finished := se.2 <|> (if status = .success then some (jsDateOfMs mtimeMs) else none)
  let duration : Option ℚ :=
    match started, finished with
    | some s, some f =>
      let diff : ℚ := ((f.getTime - s.getTime : Int) : ℚ) / 1000
      if 0 ≤ diff then some diff else none
    | _, _ => none
  let base : BuildInfo :=
    { id := name, job := job, logfile := name, status := status,
      started_at := started, finished_at := finished, duration_s := duration,
      size_bytes := sizeBytes, updated_at := jsDateOfMs mtimeMs,
      job_label := (defs job).bind (fun d => d.label),
      active := false, params := none, command := none, pid := none,
      kill_requested_at := none }
  match activeEntry with
  | none => base
  | some e =>
    { base with
      status := Status.running
      active := true
      params := some e.meta.params
      command := some e.meta.command
      pid := some e.meta.pid
      kill_requested_at := e.meta.kill_requested_at }

/-- The pure core of src/server.js `parseBuildLog`: given the file name,
its content, its modification time and size, the current time and the
matching `activeBuilds` entry (if any), produce the `BuildInfo` served by
`GET /api/builds`.  Content longer than 500000 characters is truncated to
its final 500000 characters before status inference and timestamp
extraction; a matching active entry forces status `running` and enriches
the record with live metadata. -/
def parseBuildLogCore (defs : String → Option BuildDefn) (name : String)
    (content : List Char) (mtimeMs : Int) (sizeBytes : Nat) (nowMs : Int)
    (activeEntry : Option ActiveEntry) : BuildInfo :=
  parseBuildLogAfter defs name
    (if 500000 < content.length then jsSliceLast 500000 content else content)
    mtimeMs sizeBytes nowMs activeEntry

/-- One trade record as produced by `readTrades` (src/lib/readers.js):
missing CSV cells arrive as the empty string. -/
structure Trade where
  entry_time : String
  exit_time : String
  side : String
  pnl : ℚ
deriving DecidableEq, Repr

/-- The value of the derived `hold_seconds` field: JS `null`, JS `NaN`, or
a number. -/
inductive HoldVal where
  | null
  | nan
  | num (q : ℚ)
deriving DecidableEq, Repr

/-- A trade record augmented with its derived hold duration. -/
structure RoundTrip where
  entry_time : String
  exit_time : String
  side : String
  pnl : ℚ
  hold_seconds : HoldVal
deriving DecidableEq, Repr

/-- The per-trade body of `deriveRoundTrips` (src/lib/readers.js): a falsy
(empty) timestamp yields a `null` date, a non-empty one is handed to
`new Date(...)`, which may produce an invalid date; `hold_seconds` is the
millisecond difference over 1000 when both dates exist, `NaN` when both
exist but either is invalid, and `null` when either timestamp was falsy. -/
def deriveRoundTrip (t : Trade) : RoundTrip :=
  let entry : Option (Option JsDate) :=
    if t.entry_time ≠ "" then some (jsParseStr t.entry_time) else none
  let exit : Option (Option JsDate) :=
    if t.exit_time ≠ "" then some (jsParseStr t.exit_time) else none
  let hold : HoldVal :=
    match entry, exit with
    | some pe, some px =>
      match pe, px with
      | some d1, some d2 => HoldVal.num (((d2.getTime - d1.getTime : Int) : ℚ) / 1000)
      | _, _ => HoldVal.nan
    | _, _ => HoldVal.null
  { entry_time := t.entry_time
    exit_time := t.exit_time
    side := t.side
    pnl := t.pnl
    hold_seconds := hold }

/-- src/lib/readers.js `deriveRoundTrips`. -/
def deriveRoundTrips (trades : List Trade) : List RoundTrip :=
  trades.map deriveRoundTrip

/-- One equity row as `readEquity` (src/lib/readers.js and the unnamed
readers module) produces it: `{ timestamp, equity, signal }`.  `readEquity`
folds an `incremental_pnl` CSV column into the `equity` field
(`Number(row.equity ?? row.incremental_pnl ?? 0)`), so the rows reaching
`readRegimeBreakdown` and `readCpdWindow` never expose an
`incremental_pnl` property of their own.  An optional field is an absent
or non-numeric (NaN) value. -/
structure EquityRow where
  timestamp : Option String
  equity : Option ℚ
  signal : Option ℚ
deriving DecidableEq, Repr

/-- The per-row predicate of `filterByWindow` inside `readCpdWindow`
(src/unnamed readers module): the row is kept iff its `timestamp` property
is present, non-empty, parses to a valid date, and lies within
`halfWindowMs` of the center. -/
def windowKeep (center : JsDate) (halfWindowMs : ℚ) (ts : Option String) : Bool :=
  match ts with
  | none => false
  | some s =>
    if s = "" then false
    else
      match jsParseStr s with
      | none => false
      | some t => decide (abs (((t.getTime - center.getTime : Int) : ℚ)) ≤ halfWindowMs)

/-- `rows.filter(...)` of `readCpdWindow`, parameterized by how a row
exposes its `timestamp` property. -/
def filterByWindow {α : Type} (tsOf : α → Option String) (center : JsDate)
    (halfWindowMs : ℚ) (rows : List α) : List α :=
  rows.filter fun r => windowKeep center halfWindowMs (tsOf r)

/-- The `timestamp` property of a trade record as the window filter reads
it: `readTrades` rows carry `entry_time` and `exit_time` but no
`timestamp`, so the property access yields `undefined`. -/
def Trade.windowTimestamp (_ : Trade) : Option String := none

instance {α β : Type} [DecidableEq α] [DecidableEq β] : DecidableEq (Except α β)
  | Except.error x, Except.error y => decidable_of_iff (x = y) (by simp)
  | Except.ok x, Except.ok y => decidable_of_iff (x = y) (by simp)
  | Except.error _, Except.ok _ => isFalse (fun h => Except.noConfusion h)
  | Except.ok _, Except.error _ => isFalse (fun h => Except.noConfusion h)

/-- The pure core of `readCpdWindow` (src/unnamed readers module): the
center/seconds validation and the windowing of the equity and trade
series.  `seconds = none` models a missing or non-finite `seconds` option
(both fall back to 60); the external CPD extractor payload and the
best-effort file reads are environmental and not part of the state
modelled here. -/
def readCpdWindow (timestamp : Option String) (seconds : Option ℚ)
    (equity : List EquityRow) (trades : List Trade) :
    Except String (List EquityRow × List Trade) :=
  match timestamp with
  | none => Except.error "timestamp query parameter required"
  | some ts =>
    if ts = "" then Except.error "timestamp query parameter required"
    else
      match jsParseStr ts with
      | none => Except.error "invalid timestamp"
      | some center =>
        let windowSeconds : ℚ := seconds.getD 60
        let halfWindowMs : ℚ := max 1 windowSeconds * 1000
        Except.ok
          (filterByWindow (fun r => r.timestamp) center halfWindowMs equity,
            filterByWindow Trade.windowTimestamp center halfWindowMs trades)

/-- One row of the per-timestamp model-weight series consumed by
`readRegimeBreakdown`; each field is one of the property aliases probed by
the `??` chains (`brk` renders the source property `break`, which is a
reserved word here).  A `none` field is absent or non-numeric. -/
structure ModelEntry where
  timestamp : Option String
  breakout : Option ℚ
  brk : Option ℚ
  breakout_model : Option ℚ
  iid_t : Option ℚ
  iidT : Option ℚ
  mean_reversion : Option ℚ
  meanReversion : Option ℚ
  var1 : Option ℚ
  var : Option ℚ
  var_1 : Option ℚ
deriving DecidableEq, Repr

/-- `entry.breakout ?? entry.break ?? entry.breakout_model ?? entry.iid_t
?? entry.iidT` of `readRegimeBreakdown`. -/
def breakoutSrc (e : ModelEntry) : Option ℚ :=
  e.breakout <|> e.brk <|> e.breakout_model <|> e.iid_t <|> e.iidT

/-- `entry.mean_reversion ?? entry.meanReversion ?? entry.var1 ?? entry.var
?? entry.var_1` of `readRegimeBreakdown`. -/
def meanSrc (e : ModelEntry) : Option ℚ :=
  e.mean_reversion <|> e.meanReversion <|> e.var1 <|> e.var <|> e.var_1

/-- The weight-fallback ladder of `readRegimeBreakdown`, with the breakout
weight first and the mean-reversion weight second: fill a missing weight
with the complement of the present one, default a fully missing pair to
`(0, 1)`, then renormalize by the raw sum when it is positive and fall
back to `(0, 1)` otherwise. -/
def normalizeWeights (bkSrc mrSrc : Option ℚ) : ℚ × ℚ :=
  let bk1 : Option ℚ :=
    match bkSrc, mrSrc with
    | none, some m => some (1 - m)
    | _, _ => bkSrc
  let mr1 : Option ℚ :=
    match mrSrc, bk1 with
    | none, some b => some (1 - b)
    | _, _ => mrSrc
  let pair : ℚ × ℚ :=
    match bk1, mr1 with
    | some b, some m => (b, m)
    | _, _ => (0, 1)
  let total := pair.1 + pair.2
  if 0 < total then (pair.1 / total, pair.2 / total) else (0, 1)

/-- JS `raw.replace(' ', 'T')`: replaces the first space only. -/
def replaceFirstSpace : List Char → List Char
  | [] => []
  | c :: t => if c = ' ' then 'T' :: t else c :: replaceFirstSpace t

/-- The canonical-timestamp computation of the equity loop in
`readRegimeBreakdown`: ISO form of the parsed date, or the raw string with
its first space replaced by `T` when parsing fails. -/
def canonEquityTs (raw : String) : String :=
  match jsParseStr raw with
  | some d => String.mk (toISOString d)
  | none => String.mk (replaceFirstSpace raw.data)

/-- The equity-map construction loop of `readRegimeBreakdown`: walks the
equity rows tracking the previous equity level, derives each row's
incremental P&L and keys it by the canonical timestamp.  The loop's first
test, `Number.isFinite(Number(row.incremental_pnl))`, is always false in
the program because `readEquity` rows carry no `incremental_pnl` property
(see `EquityRow`), so the increment is always the delta from the previous
finite equity level, or 0 when no such delta is derivable.  The map is a
last-set-wins association list (later rows are prepended, and lookup finds
the first match). -/
def buildEquityMap (equity : List EquityRow) : List (String × ℚ) :=
  let step := fun (st : Option ℚ × List (String × ℚ)) (row : EquityRow) =>
    match row.timestamp with
    | none => st
    | some rawTs =>
      if rawTs = "" then st
      else
        let incPrev : ℚ × Option ℚ :=
          match row.equity, st.1 with
          | some ev, some pv => (ev - pv, some ev)
          | some ev, none => (0, some ev)
          | none, _ => (0, st.1)
        (incPrev.2, (canonEquityTs rawTs, incPrev.1) :: st.2)
  (equity.foldl step (none, [])).2

/-- One per-regime slice of the attribution output. -/
structure RegimeSlice where
  id : String
  label : String
  time_share : ℚ
  pnl : ℚ
  pnl_share : ℚ
deriving DecidableEq, Repr

/-- One timeline sample of the attribution output. -/
structure TimelinePoint where
  timestamp : String
  mean_revert : ℚ
  breakout : ℚ
  incremental_pnl : ℚ
deriving DecidableEq, Repr

/-- The `total` block of the attribution output. -/
structure BreakdownTotal where
  pnl : ℚ
  observations : Nat
deriving DecidableEq, Repr

/-- The full regime-attribution output. -/
structure RegimeBreakdown where
  total : BreakdownTotal
  regimes : List RegimeSlice
  timeline : List TimelinePoint
deriving DecidableEq, Repr

/-- The fallback `summary.json` fields consumed by `readRegimeBreakdown`:
a missing or non-numeric `total_pnl` is `none`. -/
structure RunSummary where
  total_pnl : Option ℚ
deriving DecidableEq, Repr

/-- The running accumulators of the model loop in `readRegimeBreakdown`. -/
structure RegAcc where
  totalPnl : ℚ
  timeWeightMr : ℚ
  timeWeightBk : ℚ
  pnlMr : ℚ
  pnlBk : ℚ
  timeline : List TimelinePoint
deriving DecidableEq, Repr

/-- src/unnamed readers module `readRegimeBreakdown`, over its already
read inputs (model-weight rows, equity rows, summary).  An empty
model-weight series yields the degenerate result with the summary's
fallback total (`Number(...) || 0`); otherwise each sample's weights go
through the fallback ladder, its incremental P&L is looked up by canonical
timestamp (0 when absent) and the accumulators feed the per-regime
`time_share`, `pnl` and `pnl_share` figures. -/
def readRegimeBreakdown (models : List ModelEntry) (equity : List EquityRow)
    (summary : RunSummary) : RegimeBreakdown :=
  if models.isEmpty then
    { total :=
        { pnl :=
            match summary.total_pnl with
            | some v => if v = 0 then 0 else v
            | none => 0
          observations := 0 }
      regimes := []
      timeline := [] }
  else
    let equityMap := buildEquityMap equity
    let step := fun (acc : RegAcc) (entry : ModelEntry) =>
      match entry.timestamp with
      | none => acc
      | some rawTimestamp =>
        if rawTimestamp = "" then acc
        else
          let ts :=
            match jsParseStr rawTimestamp with
            | some d => String.mk (toISOString d)
            | none => rawTimestamp
          let w := normalizeWeights (breakoutSrc entry) (meanSrc entry)
          let inc := (List.lookup ts equityMap).getD 0
          { totalPnl := acc.totalPnl + inc
            timeWeightMr := acc.timeWeightMr + w.2
            timeWeightBk := acc.timeWeightBk + w.1
            pnlMr := acc.pnlMr + inc * w.2
            pnlBk := acc.pnlBk + inc * w.1
            timeline := acc.timeline ++
              [{ timestamp := rawTimestamp
                 mean_revert := w.2
                 breakout := w.1
                 incremental_pnl := inc }] }
    let acc := models.foldl step ⟨0, 0, 0, 0, 0, []⟩
    let observations : ℚ :=
      if acc.timeline.length = 0 then 1 else (acc.timeline.length : ℚ)
    { total := { pnl := acc.totalPnl, observations := acc.timeline.length }
      regimes :=
        [{ id := "mean_revert"
           label := "Mean Revert"
           time_share := acc.timeWeightMr / observations
           pnl := acc.pnlMr
           pnl_share := if acc.totalPnl = 0 then 0 else acc.pnlMr / acc.totalPnl },
         { id := "breakout"
           label := "Breakout"
           time_share := acc.timeWeightBk / observations
           pnl := acc.pnlBk
           pnl_share := if acc.totalPnl = 0 then 0 else acc.pnlBk / acc.totalPnl }]
      timeline := acc.timeline }

/-- The availability annotation computed by `definitionAvailability`
(src/server.js). -/
structure Availability where
  enabled : Bool
  missingScripts : List String
  reason : Option String
deriving DecidableEq, Repr

/-- src/server.js `definitionAvailability`, over an abstract file-system
oracle `scriptExists` applied to the resolved script path (a falsy script
entry resolves to `null` and is always missing): a non-empty missing list
disables the job with a `Missing script(s): ...` reason; otherwise the
definition's own `enabled`/`disabled_reason` fields decide. -/
def definitionAvailability (scriptExists : String → Bool) (defn : BuildDefn) :
    Availability :=
  let missing := defn.requiredScripts.filter fun s => s == "" || !(scriptExists s)
  if missing.isEmpty then
    { enabled := defn.enabled
      missingScripts := missing
      reason := if defn.enabled then none else defn.disabled_reason }
  else
    { enabled := false
      missingScripts := missing
      reason := some ((if 1 < missing.length then "Missing scripts: " else "Missing script: ") ++
        String.intercalate ", " missing) }

/-- The response of `POST /api/builds/start` as the handler sends it
(`status` is the HTTP status code; a plain `res.json` is 200). -/
structure StartResult where
  status : Nat
  ok : Bool
  error : Option String
  missing_scripts : Option (List String)
  build : Option (String × String × Nat)
deriving DecidableEq, Repr

/-- The response of the `POST /api/builds/start` handler (src/server.js):
registry lookup, availability gate, command validation, then spawn.
`spawn` abstracts `child_process.spawn` (an exception becomes the 500
branch); the log-sink side effects and the active-registry insertion are
not part of the response modelled here. -/
def startHandler (defs : String → Option BuildDefn) (scriptExists : String → Bool)
    (spawn : List String → Except String Nat) (now : JsDate)
    (jobId : Option String) (params : List (String × String)) : StartResult :=
  let unknown : StartResult :=
    { status := 400, ok := false, error := some "Unknown build job"
      missing_scripts := none, build := none }
  let invalidCmd : StartResult :=
    { status := 400, ok := false, error := some "Invalid build command"
      missing_scripts := none, build := none }
  match jobId with
  | none => unknown
  | some jid =>
    if jid = "" then unknown
    else
      match defs jid with
      | none => unknown
      | some defn =>
        let availability := definitionAvailability scriptExists defn
        if !availability.enabled then
          { status := 400
            ok := false
            error := some
              (match availability.reason with
               | some r => if r = "" then "Job not enabled yet" else r
               | none => "Job not enabled yet")
            missing_scripts := some availability.missingScripts
            build := none }
        else
          match defn.buildCommand with
          | none => invalidCmd
          | some bc =>
            match (bc params).cmd with
            | none => invalidCmd
            | some cmd =>
              if cmd.isEmpty then invalidCmd
              else
                match spawn cmd with
                | Except.error msg =>
                  { status := 500, ok := false
                    error := some ("Failed to spawn build: " ++ msg)
                    missing_scripts := none, build := none }
                | Except.ok pid =>
                  { status := 200, ok := true, error := none
                    missing_scripts := none
                    build := some (jid, String.mk (formatStamp now) ++ "." ++ jid ++ ".log", pid) }

/-- `activeBuilds.get(...)`: first matching entry of the registry. -/
def lookupEntry (active : List (String × ActiveEntry)) (k : String) :
    Option ActiveEntry :=
  (active.find? fun p => p.1 == k).map fun p => p.2

/-- In-place mutation of a registry entry (the JS handler mutates the
entry object held by the `Map`, leaving the key set unchanged). -/
def setEntry (active : List (String × ActiveEntry)) (k : String)
    (v : ActiveEntry) : List (String × ActiveEntry) :=
  active.map fun p => if p.1 == k then (p.1, v) else p

/-- The response of `POST /api/builds/kill` plus the termination signals
it sent. -/
structure KillResult where
  status : Nat
  ok : Bool
  logfile : Option String
  error : Option String
  signals : List String
deriving DecidableEq, Repr

/-- The `POST /api/builds/kill` handler (src/server.js) as a transition on
the active registry: a missing/falsy logfile is a 400, no matching entry
or an already-killed child is a 404; otherwise the handler appends a
best-effort `CANCEL` marker (environmental, not modelled), records a
cancellation timestamp on the entry's metadata, sends `SIGTERM`
(escalating to `SIGKILL` when delivery fails, per `sigtermDelivered`),
and answers 200 with the logfile.  The entry itself stays registered. -/
def killHandler (active : List (String × ActiveEntry)) (logfile : Option String)
    (now : String) (sigtermDelivered : Bool) :
    KillResult × List (String × ActiveEntry) :=
  let missingBody : KillResult :=
    { status := 400, ok := false, logfile := none
      error := some "Missing logfile identifier", signals := [] }
  let notActive : KillResult :=
    { status := 404, ok := false, logfile := none
      error := some "No active build for specified logfile", signals := [] }
  match logfile with
  | none => (missingBody, active)
  | some lf =>
    if lf = "" then (missingBody, active)
    else
      match lookupEntry active lf with
      | none => (notActive, active)
      | some e =>
        if e.child.killed then (notActive, active)
        else
          let meta2 := { e.meta with kill_requested_at := some now }
          let child2 := { e.child with killed := sigtermDelivered }
          let signals := if sigtermDelivered then ["SIGTERM"] else ["SIGTERM", "SIGKILL"]
          ({ status := 200, ok := true, logfile := some lf, error := none
             signals := signals },
            setEntry active lf { child := child2, meta := meta2 })

/-- The registry effect of the child's `close` event handler
(src/server.js): the `EXIT code=...` marker write is environmental; the
entry is deleted from the active registry. -/
def closeHandler (active : List (String × ActiveEntry)) (logName : String) :
    List (String × ActiveEntry) :=
  active.filter fun p => !(p.1 == logName)

/-! ### Theorems -/

/-- The decimal-representation accumulator is insensitive to the fuel
bound, as long as it exceeds the argument. -/
theorem natReprAux_fuel : ∀ (f1 f2 n : Nat) (acc : List Char), n < f1 → n < f2 →
    natReprAux f1 n acc = natReprAux f2 n acc := by
  intro f1
  induction f1 with
  | zero => intro f2 n acc h1 _; exact absurd h1 (Nat.not_lt_zero n)
  | succ g ih =>
    intro f2 n acc h1 h2
    cases f2 with
    | zero => exact absurd h2 (Nat.not_lt_zero n)
    | succ g2 =>
      simp only [natReprAux]
      by_cases h : n < 10
      · rw [if_pos h, if_pos h]
      · rw [if_neg h, if_neg h]
        have hd : n / 10 < n := Nat.div_lt_self (by omega) (by omega)
        exact ih g2 (n / 10) _ (by omega) (by omega)

/-- One-digit decimal representation. -/
theorem natRepr_lt_ten {n : Nat} (h : n < 10) : natRepr n = [decChar n] := by
  simp only [natRepr, natReprAux]
  rw [if_pos h]

/-- Two-digit decimal representation. -/
theorem natRepr_two {n : Nat} (h10 : 10 ≤ n) (h : n < 100) :
    natRepr n = [decChar (n / 10), decChar (n % 10)] := by
  have hd : n / 10 < n := Nat.div_lt_self (by omega) (by omega)
  simp only [natRepr, natReprAux]
  rw [if_neg (by omega),
    natReprAux_fuel n (n / 10 + 1) (n / 10) _ hd (Nat.lt_succ_self _)]
  simp only [natReprAux]
  rw [if_pos (by omega)]

/-- The zero-padded two-digit field of `formatStamp` renders tens and
units digits for any value below 100. -/
theorem pad2_eq {n : Nat} (h : n < 100) :
    pad2 n = [decChar (n / 10), decChar (n % 10)] := by
  by_cases h10 : n < 10
  · rw [pad2, natRepr_lt_ten h10]
    have h1 : n / 10 = 0 := by omega
    have h2 : n % 10 = n := by omega
    rw [h1, h2]
    rfl
  · rw [pad2, natRepr_two (by omega) h]
    rfl

/-- Four-digit decimal representation. -/
theorem natRepr_four {n : Nat} (h1 : 1000 ≤ n) (h2 : n < 10000) :
    natRepr n = [decChar (n / 1000), decChar (n / 100 % 10),
      decChar (n / 10 % 10), decChar (n % 10)] := by
  have e2 : n / 10 / 10 = n / 100 := by
    rw [Nat.div_div_eq_div_mul]
  have e3 : n / 10 / 10 / 10 = n / 1000 := by
    rw [Nat.div_div_eq_div_mul, Nat.div_div_eq_div_mul]
  have hd1 : n / 10 < n := Nat.div_lt_self (by omega) (by omega)
  have hd2 : n / 10 / 10 < n / 10 := Nat.div_lt_self (by omega) (by omega)
  have hd3 : n / 10 / 10 / 10 < n / 10 / 10 := Nat.div_lt_self (by omega) (by omega)
  simp only [natRepr, natReprAux]
  rw [if_neg (by omega),
    natReprAux_fuel n (n / 10 + 1) (n / 10) _ hd1 (Nat.lt_succ_self _)]
  simp only [natReprAux]
  rw [if_neg (by omega),
    natReprAux_fuel (n / 10) (n / 10 / 10 + 1) (n / 10 / 10) _ hd2 (Nat.lt_succ_self _)]
  simp only [natReprAux]
  rw [if_neg (by omega),
    natReprAux_fuel (n / 10 / 10) (n / 10 / 10 / 10 + 1) (n / 10 / 10 / 10) _ hd3
      (Nat.lt_succ_self _)]
  simp only [natReprAux]
  rw [if_pos (by omega), e3, e2]

/-- No month has more than 31 days. -/
theorem daysInMonth_le (y : Int) (m : Nat) : daysInMonth y m ≤ 31 := by
  unfold daysInMonth
  split
  · split <;> omega
  · split <;> omega

/-- Digit characters are recognised as digits. -/
theorem decChar_isDigit : ∀ k : Nat, k < 10 → (decChar k).isDigit = true := by
  decide

/-- `digitVal` inverts `decChar` on single digits. -/
theorem digitVal_decChar : ∀ k : Nat, k < 10 → digitVal (decChar k) = k := by
  decide

/-- A character list that begins with `pat` drawn from a constant
replicate consists of that constant only. -/
theorem beginsWith_replicate {pat : List Char} {n : Nat} {a c : Char}
    (hb : beginsWith pat (List.replicate n a) = true) (hc : c ∈ pat) : c = a := by
  induction pat generalizing n with
  | nil => simp at hc
  | cons p ps ih =>
    cases n with
    | zero => simp [beginsWith] at hb
    | succ m =>
      rw [List.replicate_succ] at hb
      simp only [beginsWith, Bool.and_eq_true, decide_eq_true_eq] at hb
      rcases List.mem_cons.mp hc with hcp | hcp
      · exact hcp ▸ hb.1
      · exact ih hb.2 hcp

/-- A pattern containing a character other than `a` never occurs in a
replicate of `a`. -/
theorem containsSeq_replicate {pat : List Char} {a c : Char} (hc : c ∈ pat)
    (hne : c ≠ a) : ∀ n, containsSeq pat (List.replicate n a) = false := by
  intro n
  induction n with
  | zero =>
    cases pat with
    | nil => simp at hc
    | cons p ps => simp [containsSeq, beginsWith]
  | succ m ih =>
    rw [List.replicate_succ]
    simp only [containsSeq]
    cases hb : beginsWith pat (a :: List.replicate m a) with
    | true =>
      rw [← List.replicate_succ] at hb
      exact absurd (beginsWith_replicate hb hc) hne
    | false => simp [ih]

/-- A log consisting of a single repeated `a` carries no failure marker. -/
theorem hasFailureMarker_replicate (n : Nat) :
    hasFailureMarker (List.replicate n 'a') = false := by
  simp only [hasFailureMarker, lowerAll, List.map_replicate]
  rw [show Char.toLower 'a' = 'a' from by decide]
  rw [containsSeq_replicate (show 't' ∈ _ by decide) (by decide) n]
  rw [containsSeq_replicate (show 'e' ∈ _ by decide) (by decide) n]
  rw [containsSeq_replicate (show 'e' ∈ _ by decide) (by decide) n]
  rfl

/-- Dropping from a replicate leaves a shorter replicate. -/
theorem drop_replicate (a : Char) :
    ∀ (n m : Nat), List.drop n (List.replicate m a) = List.replicate (m - n) a := by
  intro n
  induction n with
  | zero => intro m; simp
  | succ k ih =>
    intro m
    cases m with
    | zero => simp
    | succ m2 =>
      rw [List.replicate_succ, List.drop_succ_cons, ih, Nat.succ_sub_succ]

/-- Slicing the final `n` characters of text at least that long yields
exactly `n` characters. -/
theorem jsSliceLast_length {n : Nat} {l : List Char} (h : n ≤ l.length) :
    (jsSliceLast n l).length = n := by
  simp only [jsSliceLast, List.length_drop]
  omega

/-- The status field assembled by `parseBuildLogCore` on untruncated
content, in priority order: active registry entry, failure markers,
two-minute freshness window, success. -/
theorem parseBuildLogCore_status (defs : String → Option BuildDefn)
    (name : String) (content : List Char) (mtimeMs : Int) (sizeBytes : Nat)
    (nowMs : Int) (a : Option ActiveEntry) (h : content.length ≤ 500000) :
    (parseBuildLogCore defs name content mtimeMs sizeBytes nowMs a).status =
      if a.isSome then Status.running
      else if hasFailureMarker content then Status.failed
      else if nowMs - mtimeMs < 2 * 60 * 1000 then Status.running
      else Status.success := by
  have hc : ¬ (500000 < content.length) := not_lt.mpr h
  rcases a with _ | e <;>
    simp [parseBuildLogCore, parseBuildLogAfter, detectLogStatus, hc]

/-- C1: the status reported for a log file follows the priority order: a
matching active-registry entry forces `running` regardless of log content;
otherwise a failure marker in the (lowercased) text gives `failed`;
otherwise a modification time within the two-minute freshness window of
now gives `running`; otherwise `success`. -/
theorem status_inference_priority (defs : String → Option BuildDefn)
    (name : String) (content : List Char) (mtimeMs : Int) (sizeBytes : Nat)
    (nowMs : Int) (activeEntry : Option ActiveEntry)
    (h : content.length ≤ 500000) :
    (parseBuildLogCore defs name content mtimeMs sizeBytes nowMs activeEntry).status =
      if activeEntry.isSome then Status.running
      else if hasFailureMarker content then Status.failed
      else if nowMs - mtimeMs < 2 * 60 * 1000 then Status.running
      else Status.success :=
  parseBuildLogCore_status defs name content mtimeMs sizeBytes nowMs activeEntry h

/-- C1 witness: a stale log containing an error marker and no active
entry is reported as `failed`. -/
theorem status_inference_priority_instance :
    (parseBuildLogCore (fun _ => none) "a.log"
      ('E' :: 'R' :: 'R' :: 'O' :: 'R' :: ':' :: ' ' :: 'x' :: [])
      0 0 1000000000 none).status = Status.failed := by
  rw [status_inference_priority (fun _ => none) "a.log"
    ('E' :: 'R' :: 'R' :: 'O' :: 'R' :: ':' :: ' ' :: 'x' :: [])
    0 0 1000000000 none (by decide)]
  decide

/-- C9: content longer than 500000 characters is reduced to its final
500000 characters before status inference and timestamp extraction — the
derived record equals the one computed from the suffix alone — and a
failure marker confined to the dropped prefix cannot make the reported
status `failed`. -/
theorem long_log_truncation (defs : String → Option BuildDefn) (name : String)
    (content : List Char) (mtimeMs : Int) (sizeBytes : Nat) (nowMs : Int)
    (a : Option ActiveEntry) (h : 500000 < content.length) :
    parseBuildLogCore defs name content mtimeMs sizeBytes nowMs a =
      parseBuildLogCore defs name (jsSliceLast 500000 content) mtimeMs sizeBytes nowMs a ∧
    (hasFailureMarker (jsSliceLast 500000 content) = false →
      (parseBuildLogCore defs name content mtimeMs sizeBytes nowMs a).status ≠
        Status.failed) := by
  have hlen : (jsSliceLast 500000 content).length = 500000 :=
    jsSliceLast_length (le_of_lt h)
  have heq2 : parseBuildLogCore defs name content mtimeMs sizeBytes nowMs a =
      parseBuildLogCore defs name (jsSliceLast 500000 content) mtimeMs sizeBytes nowMs a := by
    simp only [parseBuildLogCore]
    rw [if_pos h, hlen, if_neg (lt_irrefl 500000)]
  refine ⟨heq2, ?_⟩
  intro hm
  rw [heq2, parseBuildLogCore_status defs name _ mtimeMs sizeBytes nowMs a (le_of_eq hlen)]
  rcases a with _ | e
  · simp only [Option.isSome_none, Bool.false_eq_true, if_false, hm]
    split <;> simp
  · simp

/-- C9 witness: a 500001-character log whose retained suffix is
marker-free is not reported as `failed`. -/
theorem long_log_truncation_instance :
    (parseBuildLogCore (fun _ => none) "x.log" (List.replicate 500001 'a')
      0 0 0 none).status ≠ Status.failed := by
  have h : 500000 < (List.replicate 500001 'a').length := by
    rw [List.length_replicate]
    norm_num
  have hs : jsSliceLast 500000 (List.replicate 500001 'a') =
      List.replicate 500000 'a' := by
    rw [jsSliceLast, List.length_replicate, drop_replicate]
  have hm : hasFailureMarker (jsSliceLast 500000 (List.replicate 500001 'a')) = false := by
    rw [hs]
    exact hasFailureMarker_replicate 500000
  exact (long_log_truncation (fun _ => none) "x.log" _ 0 0 0 none h).2 hm

/-- C2: for every model-weight sample, the two regime weights are each
independently optional: the weight pair always renormalizes to sum exactly
1; a single present weight keeps its value and the other becomes its
complement; a fully missing pair defaults to breakout 0, mean-reversion 1;
and a present pair whose raw sum is not positive falls back to the same
`(0, 1)` default. -/
theorem weight_fallback_ladder :
    (∀ bk mr : Option ℚ,
      (normalizeWeights bk mr).1 + (normalizeWeights bk mr).2 = 1) ∧
    (∀ w : ℚ, normalizeWeights (some w) none = (w, 1 - w)) ∧
    (∀ w : ℚ, normalizeWeights none (some w) = (1 - w, w)) ∧
    normalizeWeights none none = (0, 1) ∧
    (∀ b m : ℚ, b + m ≤ 0 → normalizeWeights (some b) (some m) = (0, 1)) := by
  have hsum : ∀ bk mr : Option ℚ,
      (normalizeWeights bk mr).1 + (normalizeWeights bk mr).2 = 1 := by
    intro bk mr
    rcases bk with _ | b <;> rcases mr with _ | m
    · norm_num [normalizeWeights]
    · simp only [normalizeWeights]
      rw [show (1 : ℚ) - m + m = 1 by ring]
      norm_num
    · simp only [normalizeWeights]
      rw [show b + (1 - b) = 1 by ring]
      norm_num
    · simp only [normalizeWeights]
      rcases lt_or_le 0 (b + m) with h | h
      · rw [if_pos h, div_add_div_same, div_self h.ne']
      · rw [if_neg (not_lt.mpr h)]
        norm_num
  refine ⟨hsum, ?_, ?_, by norm_num [normalizeWeights], ?_⟩
  · intro w
    simp only [normalizeWeights]
    rw [show w + (1 - w) = 1 by ring]
    norm_num
  · intro w
    simp only [normalizeWeights]
    rw [show (1 : ℚ) - w + w = 1 by ring]
    norm_num
  · intro b m h
    simp only [normalizeWeights]
    rw [if_neg (not_lt.mpr h)]

/-- C2 witness: a present pair with raw sum 0 takes the `(0, 1)`
fallback. -/
theorem weight_fallback_ladder_instance :
    normalizeWeights (some (1/2)) (some (-(1/2))) = (0, 1) :=
  weight_fallback_ladder.2.2.2.2 (1/2) (-(1/2)) (by norm_num)

/-- C3: on two weight samples `(mean-revert 0.7, breakout 0.3)` and
`(mean-revert 0.3, breakout 0.7)` whose timestamps match equity rows
carrying incremental P&L 10 and 20, the attribution reports total P&L 30,
mean-revert (regime A) P&L `0.7*10 + 0.3*20 = 13` and mean-revert
`pnl_share = 13/30`.  In the program, an equity row carries its
incremental P&L as the delta from the previous row's equity level (the
only way increments arise; see `buildEquityMap`), so the matched rows are
cumulative levels 10 and 30 after an anchor row at level 0: their
increments are `10 - 0 = 10` and `30 - 10 = 20`. -/
theorem regime_attribution_example :
    (readRegimeBreakdown
      [{ timestamp := some "2024-01-01T00:00:01.000Z", breakout := some (3/10),
         brk := none, breakout_model := none, iid_t := none, iidT := none,
         mean_reversion := some (7/10), meanReversion := none, var1 := none,
         var := none, var_1 := none },
       { timestamp := some "2024-01-01T00:00:02.000Z", breakout := some (7/10),
         brk := none, breakout_model := none, iid_t := none, iidT := none,
         mean_reversion := some (3/10), meanReversion := none, var1 := none,
         var := none, var_1 := none }]
      [{ timestamp := some "2024-01-01T00:00:00.000Z", equity := some 0, signal := none },
       { timestamp := some "2024-01-01T00:00:01.000Z", equity := some 10, signal := none },
       { timestamp := some "2024-01-01T00:00:02.000Z", equity := some 30, signal := none }]
      { total_pnl := none }).total.pnl = 30 ∧
    ((readRegimeBreakdown
      [{ timestamp := some "2024-01-01T00:00:01.000Z", breakout := some (3/10),
         brk := none, breakout_model := none, iid_t := none, iidT := none,
         mean_reversion := some (7/10), meanReversion := none, var1 := none,
         var := none, var_1 := none },
       { timestamp := some "2024-01-01T00:00:02.000Z", breakout := some (7/10),
         brk := none, breakout_model := none, iid_t := none, iidT := none,
         mean_reversion := some (3/10), meanReversion := none, var1 := none,
         var := none, var_1 := none }]
      [{ timestamp := some "2024-01-01T00:00:00.000Z", equity := some 0, signal := none },
       { timestamp := some "2024-01-01T00:00:01.000Z", equity := some 10, signal := none },
       { timestamp := some "2024-01-01T00:00:02.000Z", equity := some 30, signal := none }]
      { total_pnl := none }).regimes.map fun r => (r.id, r.pnl, r.pnl_share)) =
      [("mean_revert", (13 : ℚ), (13/30 : ℚ)), ("breakout", (17 : ℚ), (17/30 : ℚ))] := by
  constructor <;> decide

/-- C4 counterexample: a trade with a present but unparsable entry
timestamp gets `hold_seconds = NaN`, not `null`, refuting the claim that
`hold_seconds` is null whenever a timestamp is absent or unparsable. -/
theorem roundtrip_unparsable_counterexample :
    (deriveRoundTrips
        [{ entry_time := "garbage", exit_time := "2024-01-01T00:00:00Z",
           side := "long", pnl := 1 }]).map (fun r => r.hold_seconds) =
      [HoldVal.nan] ∧ HoldVal.nan ≠ HoldVal.null := by
  constructor <;> decide

/-- C4 (amended): round-trip derivation is the total per-record map that
preserves every trade field and adds `hold_seconds`: `null` when either
timestamp is absent (empty), `NaN` when both are present but either fails
to parse (the JSON layer serializes that `NaN` as null), and the exit
minus entry difference in seconds when both parse. -/
theorem roundtrip_derivation :
    (∀ trades : List Trade, deriveRoundTrips trades = trades.map deriveRoundTrip) ∧
    ∀ t : Trade,
      ((deriveRoundTrip t).entry_time = t.entry_time ∧
        (deriveRoundTrip t).exit_time = t.exit_time ∧
        (deriveRoundTrip t).side = t.side ∧
        (deriveRoundTrip t).pnl = t.pnl) ∧
      (t.entry_time = "" ∨ t.exit_time = "" →
        (deriveRoundTrip t).hold_seconds = HoldVal.null) ∧
      (t.entry_time ≠ "" → t.exit_time ≠ "" →
        jsParseStr t.entry_time = none ∨ jsParseStr t.exit_time = none →
        (deriveRoundTrip t).hold_seconds = HoldVal.nan) ∧
      (∀ d1 d2 : JsDate, t.entry_time ≠ "" → t.exit_time ≠ "" →
        jsParseStr t.entry_time = some d1 → jsParseStr t.exit_time = some d2 →
        (deriveRoundTrip t).hold_seconds =
          HoldVal.num (((d2.getTime - d1.getTime : Int) : ℚ) / 1000)) := by
  refine ⟨fun trades => rfl, fun t => ⟨⟨rfl, rfl, rfl, rfl⟩, ?_, ?_, ?_⟩⟩
  · intro h
    rcases h with h | h
    · simp [deriveRoundTrip, h]
    · by_cases h1 : t.entry_time = "" <;> simp [deriveRoundTrip, h, h1]
  · intro h1 h2 h3
    rcases h3 with h3 | h3
    · simp [deriveRoundTrip, h1, h2, h3]
    · rcases he : jsParseStr t.entry_time with _ | d <;>
        simp [deriveRoundTrip, h1, h2, h3, he]
  · intro d1 d2 h1 h2 hp1 hp2
    simp [deriveRoundTrip, h1, h2, hp1, hp2]

/-- C4 witness: the spec example (five-minute hold yields 300 seconds)
and a trade with an empty exit timestamp yielding null. -/
theorem roundtrip_derivation_instance :
    (deriveRoundTrip
        { entry_time := "2024-01-01T00:00:00Z", exit_time := "2024-01-01T00:05:00Z",
          side := "long", pnl := 1 }).hold_seconds = HoldVal.num 300 ∧
    (deriveRoundTrip
        { entry_time := "2024-01-01T00:00:00Z", exit_time := "",
          side := "long", pnl := 1 }).hold_seconds = HoldVal.null := by
  constructor
  · rw [(roundtrip_derivation.2 _).2.2.2
      { year := 2024, month := 1, day := 1, hour := 0, minute := 0, second := 0, ms := 0 }
      { year := 2024, month := 1, day := 1, hour := 0, minute := 5, second := 0, ms := 0 }
      (by decide) (by decide) (by decide) (by decide)]
    decide
  · exact (roundtrip_derivation.2 _).2.1 (Or.inr rfl)

/-- The window filter keeps a row exactly when its timestamp is present,
non-empty, parses, and lies within the half-window of the center. -/
theorem windowKeep_eq_true_iff (center : JsDate) (half : ℚ) (ts : Option String) :
    windowKeep center half ts = true ↔
      ∃ s d, ts = some s ∧ ¬ s = "" ∧ jsParseStr s = some d ∧
        abs (((d.getTime - center.getTime : Int) : ℚ)) ≤ half := by
  rcases ts with _ | s
  · simp [windowKeep]
  · by_cases hs : s = ""
    · simp [windowKeep, hs]
    · rcases hp : jsParseStr s with _ | d <;> simp [windowKeep, hs, hp]

/-- C5 counterexample: with half-width 0.5 s, a point 0.8 s from the
center is kept (the code clamps the half-width to at least one second),
refuting the claimed keep-iff-within-half-width rule; and an empty center
fails with the required-parameter error rather than the invalid-timestamp
error. -/
theorem window_clamp_counterexample :
    readCpdWindow (some "2024-01-01T00:00:30Z") (some (1/2))
        [{ timestamp := some "2024-01-01T00:00:30.800Z", equity := some 1, signal := none }] [] =
      Except.ok
        ([{ timestamp := some "2024-01-01T00:00:30.800Z", equity := some 1, signal := none }], []) ∧
    ¬ ((4/5 : ℚ) ≤ 1/2) ∧
    readCpdWindow (some "") (some 10) [] [] =
      Except.error "timestamp query parameter required" := by
  refine ⟨by decide, by norm_num, by decide⟩

/-- C5 (amended): window correlation fails with the invalid-timestamp
error exactly when a provided non-empty center does not parse; otherwise
it keeps an equity point iff its timestamp parses and lies within
`max 1 halfWidth` seconds of the center (the half-width is clamped to at
least one second, and a missing or non-finite half-width defaults to 60),
and it keeps no trade point at all (trade records expose no `timestamp`
property). -/
theorem window_correlation :
    ∀ (ts : String) (secs : Option ℚ) (equity : List EquityRow)
      (trades : List Trade), ts ≠ "" →
      (jsParseStr ts = none →
        readCpdWindow (some ts) secs equity trades =
          Except.error "invalid timestamp") ∧
      (∀ center, jsParseStr ts = some center →
        readCpdWindow (some ts) secs equity trades =
          Except.ok
            (equity.filter fun r =>
              windowKeep center (max 1 (secs.getD 60) * 1000) r.timestamp, []) ∧
        (∀ r : EquityRow,
          (r ∈ equity.filter fun r2 =>
              windowKeep center (max 1 (secs.getD 60) * 1000) r2.timestamp) ↔
            r ∈ equity ∧ ∃ s d, r.timestamp = some s ∧ ¬ s = "" ∧
              jsParseStr s = some d ∧
              abs (((d.getTime - center.getTime : Int) : ℚ)) ≤
                max 1 (secs.getD 60) * 1000)) := by
  intro ts secs equity trades hts
  constructor
  · intro hp
    simp [readCpdWindow, hts, hp]
  · intro center hp
    constructor
    · simp only [readCpdWindow, if_neg hts, hp, filterByWindow, Trade.windowTimestamp]
      have hnone : ∀ half : ℚ, windowKeep center half none = false := fun _ => rfl
      simp [hnone]
    · intro r
      rw [List.mem_filter, windowKeep_eq_true_iff]

/-- C5 witness: the spec example — center `00:00:30Z`, half-width 10 s —
keeps the point at `00:00:35Z` and drops the point at `00:00:45Z`. -/
theorem window_correlation_instance :
    readCpdWindow (some "2024-01-01T00:00:30Z") (some 10)
        [{ timestamp := some "2024-01-01T00:00:35Z", equity := some 1, signal := none },
         { timestamp := some "2024-01-01T00:00:45Z", equity := some 2, signal := none }] [] =
      Except.ok
        ([{ timestamp := some "2024-01-01T00:00:35Z", equity := some 1, signal := none }], []) := by
  rw [((window_correlation "2024-01-01T00:00:30Z" (some 10) _ [] (by decide)).2
    { year := 2024, month := 1, day := 1, hour := 0, minute := 0, second := 30, ms := 0 }
    (by decide)).1]
  decide

/-- C6: an empty model-weight series yields the degenerate result: total
P&L from the summary fallback field (0 when it provides none), no regimes,
empty timeline. -/
theorem regime_attribution_empty_series :
    ∀ (equity : List EquityRow) (summary : RunSummary),
      readRegimeBreakdown [] equity summary =
        { total := { pnl := summary.total_pnl.getD 0, observations := 0 }
          regimes := []
          timeline := [] } := by
  intro equity summary
  rcases summary with ⟨_ | v⟩
  · simp [readRegimeBreakdown]
  · by_cases hv : v = 0 <;> simp [readRegimeBreakdown, hv]

/-- In-place mutation of an existing registry entry is visible through
lookup. -/
theorem lookupEntry_setEntry {active : List (String × ActiveEntry)} {k : String}
    {e : ActiveEntry} (v : ActiveEntry) (h : lookupEntry active k = some e) :
    lookupEntry (setEntry active k v) k = some v := by
  induction active with
  | nil => simp [lookupEntry] at h
  | cons p rest ih =>
    by_cases hk : (p.1 == k) = true
    · unfold lookupEntry setEntry
      rw [List.map_cons, if_pos hk, List.find?_cons_of_pos _ (by simpa using hk)]
      simp
    · unfold lookupEntry at h
      rw [List.find?_cons_of_neg _ (by simpa using hk)] at h
      unfold lookupEntry setEntry
      rw [List.map_cons, if_neg hk,
        List.find?_cons_of_neg _ (by simpa using hk)]
      exact ih h

/-- Deleting a key from the registry makes lookup on that key fail. -/
theorem lookupEntry_closeHandler (active : List (String × ActiveEntry))
    (k : String) : lookupEntry (closeHandler active k) k = none := by
  induction active with
  | nil => simp [lookupEntry, closeHandler]
  | cons p rest ih =>
    cases hk : (p.1 == k) with
    | true => simpa [closeHandler, hk] using ih
    | false =>
      simp only [closeHandler, List.filter_cons, hk, Bool.not_false, if_pos] at ih ⊢
      simpa [lookupEntry, List.find?, hk] using ih

/-- C7: `kill` on a logfile with no matching active entry, or whose child
process has already been signalled, responds 404 and leaves the registry
unchanged; on a live matching entry it responds 200 with
`{ok, logfile}`, records the cancellation-request timestamp on the
entry's metadata, sends at least one termination signal and keeps the
entry registered; removal happens only in the process-exit handler. -/
theorem kill_lifecycle :
    ∀ (active : List (String × ActiveEntry)) (lf now : String) (sig : Bool),
      lf ≠ "" →
      (lookupEntry active lf = none →
        killHandler active (some lf) now sig =
          ({ status := 404, ok := false, logfile := none,
             error := some "No active build for specified logfile",
             signals := [] }, active)) ∧
      (∀ e, lookupEntry active lf = some e → e.child.killed = true →
        killHandler active (some lf) now sig =
          ({ status := 404, ok := false, logfile := none,
             error := some "No active build for specified logfile",
             signals := [] }, active)) ∧
      (∀ e, lookupEntry active lf = some e → e.child.killed = false →
        (killHandler active (some lf) now sig).1.status = 200 ∧
        (killHandler active (some lf) now sig).1.ok = true ∧
        (killHandler active (some lf) now sig).1.logfile = some lf ∧
        (killHandler active (some lf) now sig).1.signals ≠ [] ∧
        lookupEntry (killHandler active (some lf) now sig).2 lf =
          some { child := { e.child with killed := sig },
                 meta := { e.meta with kill_requested_at := some now } }) ∧
      (∀ a2 : List (String × ActiveEntry),
        lookupEntry (closeHandler a2 lf) lf = none) := by
  intro active lf now sig hlf
  refine ⟨?_, ?_, ?_, fun a2 => lookupEntry_closeHandler a2 lf⟩
  · intro h
    simp [killHandler, hlf, h]
  · intro e h hk
    simp [killHandler, hlf, h, hk]
  · intro e h hk
    have hset := lookupEntry_setEntry
      { child := { e.child with killed := sig }
        meta := { e.meta with kill_requested_at := some now } } h
    refine ⟨?_, ?_, ?_, ?_, ?_⟩ <;>
      simp [killHandler, hlf, h, hk, hset] <;>
      cases sig <;> simp

/-- C7 witness: killing the only live entry answers 200 and keeps it
registered with the cancellation timestamp; killing on an empty registry
answers 404. -/
theorem kill_lifecycle_instance :
    ((killHandler
        [("20240101_000000.jobA.log",
          { child := { pid := 7, killed := false },
            meta := { job_id := "jobA", logfile := "20240101_000000.jobA.log",
                      params := [], pid := 7, started_at := "start", command := "run",
                      kill_requested_at := none } })]
        (some "20240101_000000.jobA.log") "2024-01-02T00:00:00.000Z" true).1.status = 200 ∧
      lookupEntry
        (killHandler
          [("20240101_000000.jobA.log",
            { child := { pid := 7, killed := false },
              meta := { job_id := "jobA", logfile := "20240101_000000.jobA.log",
                        params := [], pid := 7, started_at := "start", command := "run",
                        kill_requested_at := none } })]
          (some "20240101_000000.jobA.log") "2024-01-02T00:00:00.000Z" true).2
        "20240101_000000.jobA.log" =
        some { child := { pid := 7, killed := true },
               meta := { job_id := "jobA", logfile := "20240101_000000.jobA.log",
                         params := [], pid := 7, started_at := "start", command := "run",
                         kill_requested_at := some "2024-01-02T00:00:00.000Z" } }) ∧
    killHandler [] (some "missing.log") "2024-01-02T00:00:00.000Z" true =
      ({ status := 404, ok := false, logfile := none,
         error := some "No active build for specified logfile", signals := [] }, []) := by
  refine ⟨⟨?_, ?_⟩, ?_⟩
  · exact ((kill_lifecycle
      [("20240101_000000.jobA.log",
        { child := { pid := 7, killed := false },
          meta := { job_id := "jobA", logfile := "20240101_000000.jobA.log",
                    params := [], pid := 7, started_at := "start", command := "run",
                    kill_requested_at := none } })]
      "20240101_000000.jobA.log" "2024-01-02T00:00:00.000Z" true (by decide)).2.2.1
      { child := { pid := 7, killed := false },
        meta := { job_id := "jobA", logfile := "20240101_000000.jobA.log",
                  params := [], pid := 7, started_at := "start", command := "run",
                  kill_requested_at := none } } (by decide) rfl).1
  · exact ((kill_lifecycle
      [("20240101_000000.jobA.log",
        { child := { pid := 7, killed := false },
          meta := { job_id := "jobA", logfile := "20240101_000000.jobA.log",
                    params := [], pid := 7, started_at := "start", command := "run",
                    kill_requested_at := none } })]
      "20240101_000000.jobA.log" "2024-01-02T00:00:00.000Z" true (by decide)).2.2.1
      { child := { pid := 7, killed := false },
        meta := { job_id := "jobA", logfile := "20240101_000000.jobA.log",
                  params := [], pid := 7, started_at := "start", command := "run",
                  kill_requested_at := none } } (by decide) rfl).2.2.2.2
  · exact (kill_lifecycle [] "missing.log" "2024-01-02T00:00:00.000Z" true
      (by decide)).1 rfl

/-- C8: `POST /builds/start` answers 400 when the job id is missing or
absent from the registry, when the job is disabled (the error response
then carries the missing-script list), or when the rendered command is
not a non-empty argv vector; 500 when the spawn fails; otherwise ok with
the job id, the stamped logfile name and the child pid. -/
theorem start_request_validation :
    ∀ (defs : String → Option BuildDefn) (scriptExists : String → Bool)
      (spawn : List String → Except String Nat) (now : JsDate)
      (jobId : Option String) (params : List (String × String)),
      ((jobId = none ∨ ∃ jid, jobId = some jid ∧ (jid = "" ∨ defs jid = none)) →
        startHandler defs scriptExists spawn now jobId params =
          { status := 400, ok := false, error := some "Unknown build job",
            missing_scripts := none, build := none }) ∧
      (∀ jid defn, jobId = some jid → jid ≠ "" → defs jid = some defn →
        (definitionAvailability scriptExists defn).enabled = false →
        (startHandler defs scriptExists spawn now jobId params).status = 400 ∧
        (startHandler defs scriptExists spawn now jobId params).ok = false ∧
        (startHandler defs scriptExists spawn now jobId params).missing_scripts =
          some (definitionAvailability scriptExists defn).missingScripts) ∧
      (∀ jid defn, jobId = some jid → jid ≠ "" → defs jid = some defn →
        (definitionAvailability scriptExists defn).enabled = true →
        (defn.buildCommand = none ∨
          ∃ bc, defn.buildCommand = some bc ∧
            ((bc params).cmd = none ∨ (bc params).cmd = some [])) →
        startHandler defs scriptExists spawn now jobId params =
          { status := 400, ok := false, error := some "Invalid build command",
            missing_scripts := none, build := none }) ∧
      (∀ jid defn bc cmd msg, jobId = some jid → jid ≠ "" → defs jid = some defn →
        (definitionAvailability scriptExists defn).enabled = true →
        defn.buildCommand = some bc → (bc params).cmd = some cmd → cmd ≠ [] →
        spawn cmd = Except.error msg →
        (startHandler defs scriptExists spawn now jobId params).status = 500 ∧
        (startHandler defs scriptExists spawn now jobId params).ok = false) ∧
      (∀ jid defn bc cmd pid, jobId = some jid → jid ≠ "" → defs jid = some defn →
        (definitionAvailability scriptExists defn).enabled = true →
        defn.buildCommand = some bc → (bc params).cmd = some cmd → cmd ≠ [] →
        spawn cmd = Except.ok pid →
        startHandler defs scriptExists spawn now jobId params =
          { status := 200, ok := true, error := none, missing_scripts := none,
            build := some (jid,
              String.mk (formatStamp now) ++ "." ++ jid ++ ".log", pid) }) := by
  intro defs scriptExists spawn now jobId params
  refine ⟨?_, ?_, ?_, ?_, ?_⟩
  · intro h
    rcases h with h | ⟨jid, hjid, h⟩
    · simp [startHandler, h]
    · rcases h with h | h
      · simp [startHandler, hjid, h]
      · by_cases hje : jid = "" <;> simp [startHandler, hjid, h, hje]
  · intro jid defn hjid hje hdef hav
    simp [startHandler, hjid, hje, hdef, hav]
  · intro jid defn hjid hje hdef hav h
    rcases h with h | ⟨bc, hbc, h⟩
    · simp [startHandler, hjid, hje, hdef, hav, h]
    · rcases h with h | h <;> simp [startHandler, hjid, hje, hdef, hav, hbc, h]
  · intro jid defn bc cmd msg hjid hje hdef hav hbc hcmd hne hsp
    have hemp : cmd.isEmpty = false := by
      cases cmd
      · exact absurd rfl hne
      · rfl
    constructor <;> simp [startHandler, hjid, hje, hdef, hav, hbc, hcmd, hemp, hsp]
  · intro jid defn bc cmd pid hjid hje hdef hav hbc hcmd hne hsp
    have hemp : cmd.isEmpty = false := by
      cases cmd
      · exact absurd rfl hne
      · rfl
    simp [startHandler, hjid, hje, hdef, hav, hbc, hcmd, hemp, hsp]

/-- C8 witness: a registered, enabled job with a valid command and a
successful spawn answers ok with the stamped logfile and pid; an unknown
job id answers 400. -/
theorem start_request_validation_instance :
    startHandler
        (fun j => if j = "jobA" then
          some { enabled := true, disabled_reason := none, requiredScripts := [],
                 label := none,
                 buildCommand := some fun _ =>
                   { cmd := some ["run"], cwd := none, env := none,
                     publicParams := none } }
          else none)
        (fun _ => true) (fun _ => Except.ok 42)
        { year := 2024, month := 5, day := 6, hour := 7, minute := 8, second := 9, ms := 0 }
        (some "jobA") [] =
      { status := 200, ok := true, error := none, missing_scripts := none,
        build := some ("jobA", "20240506_070809.jobA.log", 42) } ∧
    startHandler (fun _ => none) (fun _ => true) (fun _ => Except.ok 42)
        { year := 2024, month := 5, day := 6, hour := 7, minute := 8, second := 9, ms := 0 }
        (some "nope") [] =
      { status := 400, ok := false, error := some "Unknown build job",
        missing_scripts := none, build := none } := by
  constructor
  · rw [(start_request_validation
      (fun j => if j = "jobA" then
        some { enabled := true, disabled_reason := none, requiredScripts := [],
               label := none,
               buildCommand := some fun _ =>
                 { cmd := some ["run"], cwd := none, env := none,
                   publicParams := none } }
        else none)
      (fun _ => true) (fun _ => Except.ok 42)
      { year := 2024, month := 5, day := 6, hour := 7, minute := 8, second := 9, ms := 0 }
      (some "jobA") []).2.2.2.2 "jobA"
      { enabled := true, disabled_reason := none, requiredScripts := [],
        label := none,
        buildCommand := some fun _ =>
          { cmd := some ["run"], cwd := none, env := none, publicParams := none } }
      (fun _ => { cmd := some ["run"], cwd := none, env := none, publicParams := none })
      ["run"] 42 rfl (by decide) (by simp) rfl rfl rfl (by simp) rfl]
    decide
  · exact (start_request_validation (fun _ => none) (fun _ => true)
      (fun _ => Except.ok 42)
      { year := 2024, month := 5, day := 6, hour := 7, minute := 8, second := 9, ms := 0 }
      (some "nope") []).1 (Or.inr ⟨"nope", rfl, Or.inr rfl⟩)

/-- C10 counterexample: the stamp produced for the valid date
1 January 10000 has a five-digit year, fails the eight-digit shape and
parses back to `none`, so the round-trip does not hold for every valid
date. -/
theorem stamp_roundtrip_counterexample :
    JsDate.Valid
      { year := 10000, month := 1, day := 1, hour := 0, minute := 0,
        second := 0, ms := 0 } ∧
    parseTimestampStamp
      (formatStamp
        { year := 10000, month := 1, day := 1, hour := 0, minute := 0,
          second := 0, ms := 0 }) = none := by
  constructor <;> decide

/-- C10 (amended): for every valid date whose UTC year has exactly four
digits (1000–9999), parsing the stamp produced for it recovers the date
with its sub-second component dropped; and `parseTimestampStamp` returns
null on every string that does not match the
eight-digits-underscore-six-digits shape. -/
theorem stamp_roundtrip :
    (∀ d : JsDate, d.Valid → 1000 ≤ d.year → d.year ≤ 9999 →
      parseTimestampStamp (formatStamp d) = some { d with ms := 0 }) ∧
    (∀ s : List Char, ¬ StampShape s → parseTimestampStamp s = none) := by
  constructor
  · intro d hv h1 h2
    obtain ⟨hm1, hm2, hd1, hd2, hh, hmi, hs, hms⟩ := hv
    have hd31 : d.day ≤ 31 := le_trans hd2 (daysInMonth_le d.year d.month)
    have hyt1 : 1000 ≤ d.year.toNat := by omega
    have hyt2 : d.year.toNat < 10000 := by omega
    have hyr : intRepr d.year = natRepr d.year.toNat := by
      rw [intRepr, if_neg (by omega)]
    rw [formatStamp, hyr, natRepr_four hyt1 hyt2,
      pad2_eq (show d.month < 100 by omega),
      pad2_eq (show d.day < 100 by omega),
      pad2_eq (show d.hour < 100 by omega),
      pad2_eq (show d.minute < 100 by omega),
      pad2_eq (show d.second < 100 by omega)]
    simp only [List.cons_append, List.nil_append]
    rw [parseTimestampStamp]
    rw [decChar_isDigit (d.year.toNat / 1000) (by omega),
      decChar_isDigit (d.year.toNat / 100 % 10) (by omega),
      decChar_isDigit (d.year.toNat / 10 % 10) (by omega),
      decChar_isDigit (d.year.toNat % 10) (by omega),
      decChar_isDigit (d.month / 10) (by omega),
      decChar_isDigit (d.month % 10) (by omega),
      decChar_isDigit (d.day / 10) (by omega),
      decChar_isDigit (d.day % 10) (by omega),
      decChar_isDigit (d.hour / 10) (by omega),
      decChar_isDigit (d.hour % 10) (by omega),
      decChar_isDigit (d.minute / 10) (by omega),
      decChar_isDigit (d.minute % 10) (by omega),
      decChar_isDigit (d.second / 10) (by omega),
      decChar_isDigit (d.second % 10) (by omega)]
    simp only [Bool.and_self, if_pos]
    rw [digitVal_decChar (d.year.toNat / 1000) (by omega),
      digitVal_decChar (d.year.toNat / 100 % 10) (by omega),
      digitVal_decChar (d.year.toNat / 10 % 10) (by omega),
      digitVal_decChar (d.year.toNat % 10) (by omega),
      digitVal_decChar (d.month / 10) (by omega),
      digitVal_decChar (d.month % 10) (by omega),
      digitVal_decChar (d.day / 10) (by omega),
      digitVal_decChar (d.day % 10) (by omega),
      digitVal_decChar (d.hour / 10) (by omega),
      digitVal_decChar (d.hour % 10) (by omega),
      digitVal_decChar (d.minute / 10) (by omega),
      digitVal_decChar (d.minute % 10) (by omega),
      digitVal_decChar (d.second / 10) (by omega),
      digitVal_decChar (d.second % 10) (by omega)]
    rw [show 1000 * (d.year.toNat / 1000) + 100 * (d.year.toNat / 100 % 10) +
        10 * (d.year.toNat / 10 % 10) + d.year.toNat % 10 = d.year.toNat by omega,
      show 10 * (d.month / 10) + d.month % 10 = d.month by omega,
      show 10 * (d.day / 10) + d.day % 10 = d.day by omega,
      show 10 * (d.hour / 10) + d.hour % 10 = d.hour by omega,
      show 10 * (d.minute / 10) + d.minute % 10 = d.minute by omega,
      show 10 * (d.second / 10) + d.second % 10 = d.second by omega]
    rw [show (d.year.toNat : Int) = d.year by omega]
    rw [jsDateUTC,
      if_pos ⟨by omega, by omega, by omega,
        by rw [show ((d.month : Int) - 1 + 1).toNat = d.month by omega]; omega,
        by omega, by omega, by omega, by omega, by omega, by omega⟩]
    rw [show ((d.month : Int) - 1 + 1).toNat = d.month by omega]
    simp only [Int.toNat_natCast]
  · intro s hns
    by_contra hne
    apply hns
    unfold parseTimestampStamp at hne
    split at hne
    case h_2 => exact absurd rfl hne
    case h_1 y1 y2 y3 y4 mo1 mo2 dd1 dd2 hh1 hh2 mi1 mi2 ss1 ss2 =>
      split at hne
      case isFalse => exact absurd rfl hne
      case isTrue hg =>
        simp only [Bool.and_eq_true] at hg
        refine ⟨[y1, y2, y3, y4, mo1, mo2, dd1, dd2],
          [hh1, hh2, mi1, mi2, ss1, ss2], rfl, rfl, rfl, ?_, ?_⟩
        · intro c hc
          simp only [List.mem_cons, List.not_mem_nil, or_false] at hc
          rcases hc with rfl | rfl | rfl | rfl | rfl | rfl | rfl | rfl <;>
            simp_all
        · intro c hc
          simp only [List.mem_cons, List.not_mem_nil, or_false] at hc
          rcases hc with rfl | rfl | rfl | rfl | rfl | rfl <;> simp_all

/-- C10 witness: a concrete valid date in the four-digit-year range
round-trips with its milliseconds dropped, and a one-character string is
rejected. -/
theorem stamp_roundtrip_instance :
    parseTimestampStamp
      (formatStamp
        { year := 2024, month := 5, day := 6, hour := 7, minute := 8,
          second := 9, ms := 123 }) =
      some
        { year := 2024, month := 5, day := 6, hour := 7, minute := 8,
          second := 9, ms := 0 } ∧
    parseTimestampStamp ['x'] = none := by
  constructor
  · exact stamp_roundtrip.1 _ (by decide) (by decide) (by decide)
  · apply stamp_roundtrip.2
    rintro ⟨a, b, heq, ha, hb, _, _⟩
    have hlen := congrArg List.length heq
    simp only [List.length_append, List.length_cons, List.length_nil] at hlen
    omega

end Dashboard
